import Mathlib

/-!
Verification development for the figma-to-rag repository.

The Python sources are shallowly embedded: dynamic JSON-like values become
the inductive `JVal`, Python dicts become insertion-ordered association
lists with last-assignment-wins update, fallible code returns `Except`,
and the external collaborators (HTTP client, OpenAI SDK, json library,
file system) are modelled as explicit parameters or outcome types.
-/

/-- Dynamic JSON-like values: the data manipulated by the Python code.
Objects are insertion-ordered association lists, as Python dicts are. -/
inductive JVal where
  | null
  | bool (b : Bool)
  | num (n : Int)
  | str (s : String)
  | arr (elems : List JVal)
  | obj (fields : List (String × JVal))

/-- A raw element record, as produced by the extractor and consumed by the
converter: a Python dict from string keys to dynamic values. -/
abbrev Elem := List (String × JVal)

namespace JDict

/-- Python dict lookup `d[k]` / `d.get(k)` (keys are unique by construction,
so the first binding is the binding). -/
def get? (d : List (String × JVal)) (k : String) : Option JVal :=
  (d.find? (fun p => p.1 == k)).map (·.2)

/-- Python `d.get(k, default)`. -/
def getD (d : List (String × JVal)) (k : String) (v : JVal) : JVal :=
  (get? d k).getD v

/-- One key-value assignment into a Python dict: if the key is present its
value is replaced in place (position kept), otherwise the pair is appended. -/
def set (d : List (String × JVal)) (k : String) (v : JVal) : List (String × JVal) :=
  if d.any (fun p => p.1 == k) then
    d.map (fun p => if p.1 == k then (k, v) else p)
  else
    d ++ [(k, v)]

/-- The semantics of `{**d, **extra}`-style merging: the pairs of `extra`
are assigned into `d` in order, later assignments overwriting earlier ones. -/
def merge (d extra : List (String × JVal)) : List (String × JVal) :=
  extra.foldl (fun acc p => set acc p.1 p.2) d

end JDict

/-- Python `str.strip()` restricted to the whitespace characters Lean
knows about (space, tab, CR, LF); the templates in the source only ever
produce these at the ends. -/
def pyStrip (s : String) : String :=
  ⟨((s.data.dropWhile Char.isWhitespace).reverse.dropWhile Char.isWhitespace).reverse⟩

mutual

/-- The json library collaborator, `json.dumps`: a deterministic rendering
of a value. The exact spacing and escaping of the real library is
abstracted; no claim depends on the rendered text, only on it being a
function of the value. -/
def jsonDumps : JVal → String
  | .null => "null"
  | .bool b => if b then "true" else "false"
  | .num n => toString n
  | .str s => "\"" ++ s ++ "\""
  | .arr xs => "[" ++ dumpsArr xs ++ "]"
  | .obj fs => "\x7b" ++ dumpsObj fs ++ "\x7d"

/-- Comma-separated rendering of an array body. -/
def dumpsArr : List JVal → String
  | [] => ""
  | [x] => jsonDumps x
  | x :: y :: rest => jsonDumps x ++ ", " ++ dumpsArr (y :: rest)

/-- Comma-separated rendering of an object body. -/
def dumpsObj : List (String × JVal) → String
  | [] => ""
  | [(k, v)] => "\"" ++ k ++ "\": " ++ jsonDumps v
  | (k, v) :: q :: rest => "\"" ++ k ++ "\": " ++ jsonDumps v ++ ", " ++ dumpsObj (q :: rest)

end

/-- Python `str(v)` as used inside f-string templates: strings embed
as themselves; the rendering of non-string values is abstracted by the
JSON rendering (claims only ever inspect string-valued fields). -/
def pyStr : JVal → String
  | .str s => s
  | .bool b => if b then "True" else "False"
  | .null => "None"
  | v => jsonDumps v

/-- Tests whether a dynamic value equals a given Python string literal,
the meaning of `element["type"] == "text"`-style comparisons. -/
def isStrEq : JVal → String → Bool
  | .str s, t => s == t
  | _, _ => false

/-- The fields of one node of the fetched design tree that the extractor
reads (converter.py 43-90); `none` models an absent key. All other fields
of a node are never read, so they are not modelled. -/
structure NodeData where
  type? : Option String
  name? : Option String
  characters? : Option String
  style? : Option JVal
  constraints? : Option JVal
  id? : Option String
  description? : Option String
  background? : Option JVal
  layoutMode? : Option String
  counterAxisSizingMode? : Option String

/-- A node with no fields set; concrete trees are built by updating it. -/
def NodeData.empty : NodeData :=
  ⟨none, none, none, none, none, none, none, none, none, none⟩

/-- A node of the design tree: its read fields plus its ordered children
(`node.get("children", [])`). -/
inductive Node where
  | node (data : NodeData) (children : List Node)

/-- The dict the extractor appends for a TEXT node (converter.py 50-63). -/
def textElem (d : NodeData) (path : String) : Elem :=
  [("type", JVal.str "text"),
   ("content", JVal.str (d.characters?.getD "")),
   ("style", d.style?.getD (JVal.obj [])),
   ("path", JVal.str path),
   ("name", JVal.str (d.name?.getD "")),
   ("metadata", JVal.obj
     [("id", JVal.str (d.id?.getD "")),
      ("path", JVal.str path),
      ("style", d.style?.getD (JVal.obj [])),
      ("constraints", d.constraints?.getD (JVal.obj []))])]

/-- The dict the extractor appends for a named FRAME/GROUP/SECTION node
(converter.py 66-81). -/
def frameElem (d : NodeData) (path : String) : Elem :=
  [("type", JVal.str "frame"),
   ("content", JVal.str ("Frame: " ++ d.name?.getD "")),
   ("description", JVal.str (d.description?.getD "")),
   ("path", JVal.str path),
   ("name", JVal.str (d.name?.getD "")),
   ("metadata", JVal.obj
     [("id", JVal.str (d.id?.getD "")),
      ("path", JVal.str path),
      ("background", d.background?.getD (JVal.arr [])),
      ("layoutMode", JVal.str (d.layoutMode?.getD "")),
      ("counterAxisSizingMode", JVal.str (d.counterAxisSizingMode?.getD ""))])]

/-- The elements one node emits for itself: a TEXT node emits a text
element, a FRAME/GROUP/SECTION node with a truthy name emits a frame
element, every other node emits nothing (converter.py 49-81). -/
def ownElems (d : NodeData) (path : String) : List Elem :=
  if d.type? = some "TEXT" then
    [textElem d path]
  else if d.type? = some "FRAME" ∨ d.type? = some "GROUP" ∨ d.type? = some "SECTION" then
    if d.name?.getD "" ≠ "" then [frameElem d path] else []
  else []

/-- The child-path rule of converter.py 85: `path + "/" + name` when the
incoming path is non-empty (truthy), else just the name. -/
def pathAppend (path name : String) : String :=
  if path = "" then name else path ++ "/" ++ name

mutual

/-- FigmaRAGConverter.extract_text_content (converter.py 43-90): pre-order
emission of text and frame element dicts with accumulated path strings. -/
def extract_text_content (n : Node) (path : String) : List Elem :=
  match n with
  | .node d cs =>
      ownElems d path ++ extract_children cs (pathAppend path (d.name?.getD ""))

/-- The `for child in children` recursion of converter.py 87-88. -/
def extract_children (ns : List Node) (path : String) : List Elem :=
  match ns with
  | [] => []
  | c :: rest => extract_text_content c path ++ extract_children rest path

end

/-- The left fold that the source path rule performs over the ancestor
names, starting from the empty root path. -/
def joinNames (names : List String) : String :=
  names.foldl pathAppend ""

mutual

/-- Specification-side traversal, modelled from the spec (sections 4.1 and
8): elements are emitted in pre-order while an explicit list of ancestor
names is carried, and every emitted element gets path `joinF anc`, the
join of the names of its proper ancestors, which excludes the own name.
Instantiating `joinF` with slash-intercalation gives the claimed path law
verbatim; instantiating it with `joinNames` gives the code law. -/
def specElems (joinF : List String → String) (n : Node) (anc : List String) : List Elem :=
  match n with
  | .node d cs =>
      ownElems d (joinF anc) ++ specChildren joinF cs (anc ++ [d.name?.getD ""])

/-- Children of the specification-side traversal, in order. -/
def specChildren (joinF : List String → String) (ns : List Node) (anc : List String) : List Elem :=
  match ns with
  | [] => []
  | c :: rest => specElems joinF c anc ++ specChildren joinF rest anc

end

/-- The path of an element dict, read back as a string. -/
def elemPath (e : Elem) : String :=
  match JDict.get? e "path" with
  | some (.str s) => s
  | _ => ""

/-- The type tag of an element dict, read back as a string. -/
def elemType (e : Elem) : String :=
  match JDict.get? e "type" with
  | some (.str s) => s
  | _ => ""

/-- The name of an element dict, read back as a string. -/
def elemName (e : Elem) : String :=
  match JDict.get? e "name" with
  | some (.str s) => s
  | _ => ""

/-- The content of an element dict, read back as a string. -/
def elemContent (e : Elem) : String :=
  match JDict.get? e "content" with
  | some (.str s) => s
  | _ => ""

/-- The shape invariant of every element the extractor emits: the type
tag is text or frame; the content, path, name and metadata keys are
present; the metadata mapping has id and path keys; and the metadata path
equals the top-level path. -/
def elemShapeOK (e : Elem) : Prop :=
  (JDict.get? e "type" = some (JVal.str "text") ∨
    JDict.get? e "type" = some (JVal.str "frame")) ∧
  (JDict.get? e "content").isSome = true ∧
  (JDict.get? e "path").isSome = true ∧
  (JDict.get? e "name").isSome = true ∧
  ∃ m, JDict.get? e "metadata" = some (JVal.obj m) ∧
    (JDict.get? m "id").isSome = true ∧
    JDict.get? m "path" = JDict.get? e "path"

/-- The FRAME node of the spec scenario tree. -/
def page1Data : NodeData :=
  { NodeData.empty with type? := some "FRAME", name? := some "Page1" }

/-- The TEXT node of the spec scenario tree. -/
def t1Data : NodeData :=
  { NodeData.empty with type? := some "TEXT", name? := some "T1", characters? := some "Hello" }

/-- The spec scenario tree: a FRAME named Page1 with one TEXT child T1
containing Hello. -/
def page1Tree : Node :=
  .node page1Data [.node t1Data []]

/-- A tree refuting the intercalation path law: an unnamed root over a
FRAME A over a TEXT T. The TEXT ancestors are named ["", "A"], which
intercalate to "/A", but the code computes path "A". -/
def unnamedRootTree : Node :=
  .node NodeData.empty
    [.node { NodeData.empty with type? := some "FRAME", name? := some "A" }
      [.node { NodeData.empty with
                 type? := some "TEXT", name? := some "T",
                 characters? := some "x" } []]]

/-- The exception taxonomy of exceptions.py, restricted to the classes the
modelled code paths can surface. The source also imports a ProcessingError
from exceptions.py that exceptions.py does not define; it never occurs in
the modelled paths. -/
inductive AppError where
  | figmaAPIError (msg : String)
  | conversionError (msg : String)
  | fileOperationError (msg : String)
  | validationError (msg : String)
  deriving DecidableEq

/-- The RAGDocument pydantic model (models.py): a content string plus a
metadata dict. -/
structure RAGDocument where
  content : String
  metadata : List (String × JVal)

/-- The content templating of convert_to_rag_format (converter.py 95-107):
the text template for kind text, the frame template for kind frame, and
the initial empty string for every other kind. Key accesses follow the
evaluation order of the f-strings; a missing key raises (KeyError, whose
message is modelled as the key name). -/
def convertContent (element : Elem) (ty : JVal) : Except String String :=
  if isStrEq ty "text" then
    match JDict.get? element "content" with
    | none => .error "content"
    | some c =>
      match JDict.get? element "path" with
      | none => .error "path"
      | some p =>
        match JDict.get? element "style" with
        | none => .error "style"
        | some s =>
          .ok (pyStrip ("\nText Content: " ++ pyStr c ++ "\nLocation: " ++ pyStr p ++
            "\nStyle: " ++ jsonDumps s ++ "\n                "))
  else if isStrEq ty "frame" then
    match JDict.get? element "name" with
    | none => .error "name"
    | some nm =>
      match JDict.get? element "path" with
      | none => .error "path"
      | some p =>
        .ok (pyStrip ("\nFrame: " ++ pyStr nm ++
          "\nDescription: " ++ pyStr (JDict.getD element "description" (JVal.str "No description")) ++
          "\nPath: " ++ pyStr p))
  else .ok ""

/-- The body of the try block of convert_to_rag_format (converter.py
94-117): compute the content, then build the metadata dict literal
with base keys type, path, name followed by the spread of the element
metadata mapping. Spreading a non-mapping raises (TypeError). -/
def convertInner (element : Elem) : Except String RAGDocument :=
  match JDict.get? element "type" with
  | none => .error "type"
  | some ty =>
    match convertContent element ty with
    | .error m => .error m
    | .ok content =>
      match JDict.get? element "path" with
      | none => .error "path"
      | some p =>
        match JDict.get? element "name" with
        | none => .error "name"
        | some nm =>
          match JDict.get? element "metadata" with
          | none => .error "metadata"
          | some md =>
            match md with
            | .obj mfs =>
                .ok ⟨content, JDict.merge [("type", ty), ("path", p), ("name", nm)] mfs⟩
            | _ => .error "argument after ** must be a mapping"

/-- FigmaRAGConverter.convert_to_rag_format (converter.py 92-119): any
exception inside the try block is re-raised as a ConversionError. -/
def convert_to_rag_format (element : Elem) : Except AppError RAGDocument :=
  match convertInner element with
  | .ok d => .ok d
  | .error m => .error (.conversionError ("Failed to convert element to RAG format: " ++ m))

/-- The outcome of the one HTTP GET of make_request, as the requests
collaborator reports it: either the request itself raised a
RequestException, or a response arrived with a status code, a body text,
and an outcome of response.json() (whose decode failure raises a
JSONDecodeError, a RequestException subclass in the requests versions the
repo can resolve, hence caught by the same handler). -/
inductive HttpOutcome where
  | transportError (msg : String)
  | response (statusCode : Nat) (text : String) (jsonBody : Except String JVal)

/-- The FigmaAPIResponse pydantic model (models.py): pydantic validates
that data is a mapping. -/
structure FigmaAPIResponse where
  status : Nat
  data : List (String × JVal)
  error : Option String

/-- FigmaRAGConverter._make_request (converter.py 22-31): response.ok is
status < 400; on an ok response data is the parsed JSON body (a decode
failure is caught as a RequestException; a non-mapping body fails
pydantic validation of the data field, which is not caught); on a non-ok
response data is set to the empty dict and error to the body text. -/
def make_request (h : HttpOutcome) : Except AppError FigmaAPIResponse :=
  match h with
  | .transportError m => .error (.figmaAPIError ("Failed to fetch data from Figma: " ++ m))
  | .response st text jsonBody =>
    if st < 400 then
      match jsonBody with
      | .error m => .error (.figmaAPIError ("Failed to fetch data from Figma: " ++ m))
      | .ok (.obj fs) => .ok ⟨st, fs, none⟩
      | .ok _ => .error (.validationError "data: dictionary required")
    else .ok ⟨st, [], some text⟩

/-- FigmaRAGConverter.get_file_content (converter.py 33-41): re-raise a
truthy response error (a non-empty error string) as a FigmaAPIError,
otherwise return the data mapping. -/
def get_file_content (h : HttpOutcome) : Except AppError (List (String × JVal)) :=
  match make_request h with
  | .error e => .error e
  | .ok r =>
    match r.error with
    | some e => if e ≠ "" then .error (.figmaAPIError e) else .ok r.data
    | none => .ok r.data

/-- Tests whether a result is a raised FigmaAPIError. -/
def isFigmaAPIError {β : Type} : Except AppError β → Bool
  | .error (.figmaAPIError _) => true
  | _ => false

/-- The condition the claim names for get_file_content raising a
FigmaAPIError: a transport-level failure, or a non-success status with a
non-empty body text. -/
def FigmaFailCond : HttpOutcome → Prop
  | .transportError _ => True
  | .response st text _ => 400 ≤ st ∧ text ≠ ""

/-- The amended condition: additionally, a success-status response whose
body fails to decode as JSON raises through the same handler. -/
def FigmaFailCondAmended : HttpOutcome → Prop
  | .transportError _ => True
  | .response st text jsonBody =>
      (400 ≤ st ∧ text ≠ "") ∨ (st < 400 ∧ ∃ m, jsonBody = .error m)

/-- The pydantic JSON serialization model_dump_json of a RAGDocument
(string escaping of the real serializer abstracted; it is a function of
the record). -/
def model_dump_json (d : RAGDocument) : String :=
  "\x7b\"content\": \"" ++ d.content ++ "\", \"metadata\": " ++
    jsonDumps (.obj d.metadata) ++ "\x7d"

/-- The line-delimited text save_to_jsonl writes: one serialized record
plus newline per document (converter.py 165-167). -/
def jsonlText (documents : List RAGDocument) : String :=
  String.join (documents.map (fun d => model_dump_json d ++ "\n"))

/-- FigmaRAGConverter.save_to_jsonl (converter.py 158-169). The file
system collaborator is the write parameter (opening, writing and closing
the output file; .error is an IOError message). Any IOError is re-raised
as a ConversionError. -/
def save_to_jsonl (documents : List RAGDocument) (write : String → Except String Unit) :
    Except AppError Unit :=
  match write (jsonlText documents) with
  | .ok _ => .ok ()
  | .error m => .error (.conversionError ("Failed to save output: " ++ m))

/-- The outcome of the Fetch step of process_file as the rest of the
pipeline consumes it: get_file_content raised, or the fetched mapping
lacks a document key, or it has one, whose value is the design tree
(typed as the extractor input domain). -/
inductive FetchResult where
  | fetchError (e : AppError)
  | missingDocument
  | document (tree : Node)

/-- FigmaRAGConverter.process_file (converter.py 121-156): fetch, extract,
convert each element with per-element recovery (a failed element is
logged and skipped), save, and return the converted documents. The result
is instrumented to also expose the exact bytes handed to the writer. The
run parameter stands for every run-varying ambient input of one
invocation (wall clock, log handles); the source reads none of it into
the records or the output. -/
def process_file (fetch : FetchResult) (write : String → Except String Unit) (_run : Nat) :
    Except AppError (List RAGDocument × String) :=
  match fetch with
  | .fetchError e => .error e
  | .missingDocument => .error (.figmaAPIError "Invalid file content received from Figma")
  | .document t =>
    let elements := extract_text_content t ""
    let docs := elements.filterMap (fun e => (convert_to_rag_format e).toOption)
    match save_to_jsonl docs write with
    | .error e => .error e
    | .ok _ => .ok (docs, jsonlText docs)

/-- The ProcessedDesignElement pydantic model (openai_processor.py 7-15). -/
structure ProcessedDesignElement where
  element_type : String
  title : String
  description : String
  context : String
  style_tokens : List (String × JVal)
  usage_guidelines : String
  related_elements : List String

/-- Reads a required string field for pydantic validation. -/
def reqStr (fs : List (String × JVal)) (k : String) : Except String String :=
  match JDict.get? fs k with
  | some (.str s) => .ok s
  | some _ => .error (k ++ ": str type expected")
  | none => .error (k ++ ": field required")

/-- Reads a list of strings for pydantic validation. -/
def allStr : List JVal → Except String (List String)
  | [] => .ok []
  | .str s :: rest => (allStr rest).map (s :: ·)
  | _ :: _ => .error "related_elements: str type expected"

/-- The construction ProcessedDesignElement(**content) (openai_processor.py
61): content must be a mapping; the four required fields must be strings;
the three optional fields default; unknown keys are ignored. A violation
raises (pydantic ValidationError / TypeError). -/
def validateProcessed (v : JVal) : Except String ProcessedDesignElement :=
  match v with
  | .obj fs => do
    let et ← reqStr fs "element_type"
    let ti ← reqStr fs "title"
    let de ← reqStr fs "description"
    let co ← reqStr fs "context"
    let st ← match JDict.get? fs "style_tokens" with
      | none => Except.ok []
      | some (.obj m) => Except.ok m
      | some _ => Except.error "style_tokens: mapping expected"
    let ug ← match JDict.get? fs "usage_guidelines" with
      | none => Except.ok ""
      | some (.str s) => Except.ok s
      | some _ => Except.error "usage_guidelines: str type expected"
    let re ← match JDict.get? fs "related_elements" with
      | none => Except.ok []
      | some (.arr xs) => allStr xs
      | some _ => Except.error "related_elements: list expected"
    .ok ⟨et, ti, de, co, st, ug, re⟩
  | _ => .error "argument after ** must be a mapping"

/-- The expression `await self.client.chat.completions.create(...)` of
openai_processor.py 50. modelCall is the chat-completions collaborator:
.ok is the returned ChatCompletion (carrying the response message
content), .error is the SDK call raising. The client is the synchronous
openai.OpenAI (openai_processor.py 22), whose ChatCompletion return is
not awaitable, so whenever the SDK call returns, the await itself raises
a TypeError (whose exact CPython wording, which quotes the word await,
is abstracted here); the message content is never obtained. -/
def awaitedCreate (modelCall : Elem → Except String String) (element : Elem) :
    Except String String :=
  match modelCall element with
  | .error m => .error m
  | .ok _ => .error "object ChatCompletion can not be used in await expression"

/-- OpenAIProcessor.process_element (openai_processor.py 47-65).
jsonLoads is the json.loads collaborator: .error is a JSONDecodeError
message. A decode failure would be rewrapped as the parse ValueError,
every other failure as the process ValueError; since the awaited call
always raises (see awaitedCreate), the parse, validation and success
paths are unreachable and every element fails. -/
def process_element (modelCall : Elem → Except String String)
    (jsonLoads : String → Except String JVal) (element : Elem) :
    Except String ProcessedDesignElement :=
  match awaitedCreate modelCall element with
  | .error m => .error ("Failed to process element: " ++ m)
  | .ok text =>
    match jsonLoads text with
    | .error m => .error ("Failed to parse OpenAI response as JSON: " ++ m)
    | .ok v =>
      match validateProcessed v with
      | .error m => .error ("Failed to process element: " ++ m)
      | .ok p => .ok p

/-- OpenAIProcessor.create_rag_document (openai_processor.py 67-97). -/
def create_rag_document (p : ProcessedDesignElement) : RAGDocument :=
  { content := pyStrip ("\n# " ++ p.title ++
      "\n\n## Description\n" ++ p.description ++
      "\n\n## Usage Guidelines\n" ++ p.usage_guidelines ++
      "\n\n## Context\n" ++ p.context ++
      "\n\n## Style Information\n" ++ jsonDumps (.obj p.style_tokens) ++
      "\n\n## Related Elements\n" ++ String.intercalate ", " p.related_elements ++
      "\n        ")
    metadata :=
      [("element_type", .str p.element_type),
       ("title", .str p.title),
       ("context", .str p.context),
       ("related_elements", .arr (p.related_elements.map .str)),
       ("style_tokens", .obj p.style_tokens)] }

/-- The batch partition both loops use: elements[i : i + batch_size] for
i in range(0, len(elements), batch_size) (openai_processor.py 108-109 and
cli.py 365-366). range(0, n, k) has ceil(n / k) indices for k > 0 and
raises ValueError for k = 0, which is modelled as no batches. -/
def batchSlices {α : Type} (xs : List α) (k : Nat) : List (List α) :=
  (List.range ((xs.length + k - 1) / k)).map (fun i => (xs.drop (i * k)).take k)

/-- The per-batch inner loop of batch_process (openai_processor.py
112-122): process each element of the batch independently, collecting the
produced documents and the (element, error message) pairs of the failed
ones; a failure never aborts the batch. -/
def processBatch (mc : Elem → Except String String) (jl : String → Except String JVal)
    (batch : List Elem) : List RAGDocument × List (Elem × String) :=
  batch.foldl
    (fun bacc element =>
      match process_element mc jl element with
      | .ok p => (bacc.1 ++ [create_rag_document p], bacc.2)
      | .error e => (bacc.1, bacc.2 ++ [(element, e)]))
    ([], [])

/-- OpenAIProcessor.batch_process (openai_processor.py 99-126),
instrumented to also return the local failed_elements list: the source
builds that list but returns only processed_documents, discarding it. -/
def batch_processAux (mc : Elem → Except String String) (jl : String → Except String JVal)
    (elements : List Elem) (batch_size : Nat) : List RAGDocument × List (Elem × String) :=
  (batchSlices elements batch_size).foldl
    (fun acc batch =>
      let pb := processBatch mc jl batch
      (acc.1 ++ pb.1, acc.2 ++ pb.2))
    ([], [])

/-- What batch_process actually returns: the documents only. -/
def batch_process (mc : Elem → Except String String) (jl : String → Except String JVal)
    (elements : List Elem) (batch_size : Nat) : List RAGDocument :=
  (batch_processAux mc jl elements batch_size).1

/-- The outcome of the per-batch retry loop of the cli process command
(cli.py 368-382). -/
inductive BatchOutcome where
  | success (docs : List RAGDocument)
  | failedBatch
  | skipped

/-- The for-attempt loop of cli.py 368-382 for one batch: run the batch
call; on success the documents are taken and the loop breaks; on an
exception the batch is retried, and on the last attempt the batch is
marked failed. With zero attempts the loop body never runs. The run
argument is the (deterministic) batch call, identical on every attempt. -/
def attemptLoop (run : Except String (List RAGDocument)) : Nat → BatchOutcome
  | 0 => .skipped
  | remaining + 1 =>
    match run with
    | .ok docs => .success docs
    | .error _ =>
      match remaining with
      | 0 => .failedBatch
      | _ + 1 => attemptLoop run remaining

/-- The batching-with-retry loop of the cli process command (cli.py
362-382): partition the elements, and for each batch run
asyncio.run(batch_process(batch, batch_size)) under the attempt loop.
batch_process catches every per-element exception and so never raises,
hence the batch call is modelled as always returning ok; documents of
successful batches are appended in order, and a batch that exhausts its
attempts is appended to failed_elements. Returns (documents,
failed_elements) as the command then persists them. -/
def cliProcess (mc : Elem → Except String String) (jl : String → Except String JVal)
    (elements : List Elem) (batch_size retry_attempts : Nat) :
    List RAGDocument × List Elem :=
  (batchSlices elements batch_size).foldl
    (fun acc batch =>
      match attemptLoop (.ok (batch_process mc jl batch batch_size)) retry_attempts with
      | .success docs => (acc.1 ++ docs, acc.2)
      | .failedBatch => (acc.1, acc.2 ++ batch)
      | .skipped => acc)
    ([], [])

/-- The per-element document outcome the pipeline induces: the document
created for an element that processes, none for one that fails. -/
def docOf (mc : Elem → Except String String) (jl : String → Except String JVal)
    (element : Elem) : Option RAGDocument :=
  match process_element mc jl element with
  | .ok p => some (create_rag_document p)
  | .error _ => none

/-- The per-element failure outcome: the (element, error) pair recorded
for an element that fails, none for one that processes. -/
def failOf (mc : Elem → Except String String) (jl : String → Except String JVal)
    (element : Elem) : Option (Elem × String) :=
  match process_element mc jl element with
  | .ok _ => none
  | .error e => some (element, e)

/-- First concrete element of the always-failing batch. -/
def c1e1 : Elem := [("name", JVal.str "g1")]

/-- Second concrete element of the always-failing batch. -/
def c1e2 : Elem := [("name", JVal.str "g2")]

/-- A model collaborator whose remote call always fails. -/
def failCall : Elem → Except String String := fun _ => .error "network unreachable"

/-- A json.loads collaborator that always reports a decode failure. -/
def failLoads : String → Except String JVal := fun _ => .error "Expecting value"

/-- A parsed model response that validates as a ProcessedDesignElement. -/
def okShape : JVal :=
  .obj [("element_type", .str "text"), ("title", .str "t"),
        ("description", .str "d"), ("context", .str "c")]

/-- A model collaborator that answers every element with its name. -/
def nameCall : Elem → Except String String := fun e =>
  .ok (match JDict.get? e "name" with | some (.str s) => s | _ => "")

/-- A json.loads collaborator that fails to decode exactly the response
of the third element and decodes every other response to a valid shape. -/
def badThirdLoads : String → Except String JVal := fun t =>
  if t = "n3" then .error "Expecting value: line 1 column 1" else .ok okShape

/-- Elements n1 .. n5 of the five-element batch with one unparseable
model response. -/
def c2e1 : Elem := [("name", JVal.str "n1")]

/-- Element n2 of the five-element batch. -/
def c2e2 : Elem := [("name", JVal.str "n2")]

/-- Element n3, the one whose model response does not parse. -/
def c2e3 : Elem := [("name", JVal.str "n3")]

/-- Element n4 of the five-element batch. -/
def c2e4 : Elem := [("name", JVal.str "n4")]

/-- Element n5 of the five-element batch. -/
def c2e5 : Elem := [("name", JVal.str "n5")]

/-- The five-element batch. -/
def c2Elems : List Elem := [c2e1, c2e2, c2e3, c2e4, c2e5]

/-- An element of a kind that is neither text nor frame, with every field
the converter reads present. -/
def c3OtherElem : Elem :=
  [("type", JVal.str "other"), ("path", JVal.str "p"),
   ("name", JVal.str "n"), ("metadata", JVal.obj [])]

/-- A complete text element. -/
def c3TextElem : Elem :=
  [("type", JVal.str "text"), ("content", JVal.str "hi"),
   ("path", JVal.str "loc"), ("style", JVal.obj []),
   ("name", JVal.str "n"), ("metadata", JVal.obj [])]

/-- The record the converter returns for the other-kind element. -/
def c3OtherDoc : RAGDocument :=
  (convert_to_rag_format c3OtherElem).toOption.getD ⟨"", []⟩

/-- The record the converter returns for the text element. -/
def c3TextDoc : RAGDocument :=
  (convert_to_rag_format c3TextElem).toOption.getD ⟨"", []⟩

/-- A text element whose base path Y collides with a path key carrying X
inside its extra metadata mapping. -/
def c4Elem : Elem :=
  [("type", JVal.str "text"), ("content", JVal.str "hi"),
   ("path", JVal.str "Y"), ("style", JVal.obj []),
   ("name", JVal.str "n"), ("metadata", JVal.obj [("path", JVal.str "X")])]

/-- The record the converter returns for the colliding element. -/
def c4Doc : RAGDocument :=
  (convert_to_rag_format c4Elem).toOption.getD ⟨"", []⟩

/-- A write collaborator that always fails with a permission error. -/
def failWrite : String → Except String Unit := fun _ => .error "Permission denied"

/-- A write collaborator that always succeeds. -/
def okWrite : String → Except String Unit := fun _ => .ok ()

/-- A document with nothing in it, for exercising the failing save. -/
def emptyDoc : RAGDocument := ⟨"", []⟩

/-- A tree with a single bare node: it extracts to zero elements. -/
def bareTree : Node := .node NodeData.empty []

/-- A success-status response whose body text is not JSON. -/
def c9BadBody : HttpOutcome :=
  .response 200 "<html>" (.error "Expecting value: line 1 column 1")

/-- The element the shape-invariant witness inspects: the TEXT element
the scenario tree emits. -/
def c10Elem : Elem := textElem t1Data "Page1"

/-! ### Association-list (Python dict) lemmas -/

theorem JDict.get?_cons_self {q : String × JVal} {t : List (String × JVal)} {k : String}
    (h : q.1 = k) : JDict.get? (q :: t) k = some q.2 := by
  simp [JDict.get?, h]

theorem JDict.get?_cons_ne {q : String × JVal} {t : List (String × JVal)} {k : String}
    (h : ¬ q.1 = k) : JDict.get? (q :: t) k = JDict.get? t k := by
  simp [JDict.get?, h]

theorem JDict.get?_replace_ne {k k' : String} {v : JVal} (h : k' ≠ k) :
    ∀ d : List (String × JVal),
      JDict.get? (d.map (fun p => if p.1 == k then (k, v) else p)) k' = JDict.get? d k'
  | [] => by simp [JDict.get?]
  | q :: t => by
    simp only [List.map_cons]
    by_cases hq : q.1 = k
    · rw [if_pos (by simp [hq])]
      have h1 : ¬ (k, v).1 = k' := fun e => h e.symm
      have h2 : ¬ q.1 = k' := by rw [hq]; exact fun e => h e.symm
      rw [JDict.get?_cons_ne h1, JDict.get?_cons_ne h2, JDict.get?_replace_ne h t]
    · rw [if_neg (by simp [hq])]
      by_cases hq' : q.1 = k'
      · rw [JDict.get?_cons_self hq', JDict.get?_cons_self hq']
      · rw [JDict.get?_cons_ne hq', JDict.get?_cons_ne hq', JDict.get?_replace_ne h t]

theorem JDict.get?_replace_self {k : String} {v : JVal} :
    ∀ d : List (String × JVal), (d.any (fun p => p.1 == k)) = true →
      JDict.get? (d.map (fun p => if p.1 == k then (k, v) else p)) k = some v
  | [], hany => by simp at hany
  | q :: t, hany => by
    simp only [List.map_cons]
    by_cases hq : q.1 = k
    · rw [if_pos (by simp [hq])]
      exact JDict.get?_cons_self rfl
    · rw [if_neg (by simp [hq])]
      rw [JDict.get?_cons_ne hq]
      apply JDict.get?_replace_self t
      simp only [List.any_cons, Bool.or_eq_true] at hany
      rcases hany with h | h
      · exact absurd (by simpa using h) hq
      · exact h

theorem JDict.get?_set_self (d : List (String × JVal)) (k : String) (v : JVal) :
    JDict.get? (JDict.set d k v) k = some v := by
  unfold JDict.set
  split
  next hany => exact JDict.get?_replace_self d hany
  next hany =>
    have hnone : d.find? (fun p => p.1 == k) = none := by
      rw [List.find?_eq_none]
      intro x hx hpx
      exact hany (List.any_eq_true.mpr ⟨x, hx, hpx⟩)
    simp [JDict.get?, hnone]

theorem JDict.get?_set_ne (d : List (String × JVal)) {k k' : String} (v : JVal)
    (h : k' ≠ k) : JDict.get? (JDict.set d k v) k' = JDict.get? d k' := by
  unfold JDict.set
  split
  · exact JDict.get?_replace_ne h d
  · simp only [JDict.get?, List.find?_append]
    have hnone : List.find? (fun p => p.1 == k') [(k, v)] = none := by
      rw [List.find?_eq_none]
      intro x hx hpx
      simp only [List.mem_singleton] at hx
      subst hx
      have hkk : k = k' := by simpa using hpx
      exact h hkk.symm
    simp [hnone]

theorem JDict.get?_merge_of_forall_ne (d m : List (String × JVal)) (k : String)
    (h : ∀ p ∈ m, p.1 ≠ k) : JDict.get? (JDict.merge d m) k = JDict.get? d k := by
  induction m generalizing d with
  | nil => rfl
  | cons q t ih =>
    simp only [JDict.merge, List.foldl_cons] at ih ⊢
    rw [ih _ (fun p hp => h p (List.mem_cons_of_mem _ hp))]
    exact JDict.get?_set_ne _ _ (fun e => h q (List.mem_cons_self _ _) e.symm)

theorem JDict.get?_merge_of_mem (d m : List (String × JVal)) (k : String) (v : JVal)
    (hnd : (m.map Prod.fst).Nodup) (h : JDict.get? m k = some v) :
    JDict.get? (JDict.merge d m) k = some v := by
  induction m generalizing d with
  | nil => simp [JDict.get?] at h
  | cons q t ih =>
    simp only [List.map_cons, List.nodup_cons] at hnd
    simp only [JDict.merge, List.foldl_cons]
    by_cases hq : q.1 = k
    · subst hq
      rw [JDict.get?_cons_self rfl] at h
      have hv : q.2 = v := by simpa using h
      subst hv
      have hnotin : ∀ p ∈ t, p.1 ≠ q.1 := by
        intro p hp hk
        exact hnd.1 (hk ▸ List.mem_map_of_mem Prod.fst hp)
      rw [show (List.foldl (fun acc p => JDict.set acc p.1 p.2) (JDict.set d q.1 q.2) t)
            = JDict.merge (JDict.set d q.1 q.2) t from rfl]
      rw [JDict.get?_merge_of_forall_ne _ _ _ hnotin]
      exact JDict.get?_set_self _ _ _
    · rw [JDict.get?_cons_ne hq] at h
      exact ih _ hnd.2 h

/-! ### String strip lemmas -/

theorem mem_dropWhile_of_neg {α : Type} (p : α → Bool) (a : α) :
    ∀ l : List α, a ∈ l → p a = false → a ∈ l.dropWhile p := by
  intro l hl hpa
  induction l with
  | nil => simp at hl
  | cons x t ih =>
    rw [List.dropWhile_cons]
    rcases List.mem_cons.mp hl with rfl | hm
    · simp [hpa]
    · split
      · exact ih hm
      · exact List.mem_cons_of_mem _ hm

theorem pyStrip_ne_empty {s : String} {c : Char} (hc : c.isWhitespace = false)
    (hm : c ∈ s.data) : pyStrip s ≠ "" := by
  intro h
  have hdata : (((s.data.dropWhile Char.isWhitespace).reverse.dropWhile
      Char.isWhitespace).reverse : List Char) = [] := congrArg String.data h
  have h1 : c ∈ s.data.dropWhile Char.isWhitespace :=
    mem_dropWhile_of_neg _ _ _ hm hc
  have h2 : c ∈ (s.data.dropWhile Char.isWhitespace).reverse := by
    rwa [List.mem_reverse]
  rw [List.reverse_eq_nil_iff, List.dropWhile_eq_nil_iff] at hdata
  rw [hdata c h2] at hc
  exact Bool.noConfusion hc

/-! ### Converter characterization -/

theorem convert_ok_elim {e : Elem} {r : RAGDocument}
    (h : convert_to_rag_format e = .ok r) :
    ∃ ty p nm mfs, JDict.get? e "type" = some ty ∧
      convertContent e ty = .ok r.content ∧
      JDict.get? e "path" = some p ∧ JDict.get? e "name" = some nm ∧
      JDict.get? e "metadata" = some (JVal.obj mfs) ∧
      r.metadata = JDict.merge [("type", ty), ("path", p), ("name", nm)] mfs := by
  unfold convert_to_rag_format convertInner at h
  cases hty : JDict.get? e "type" with
  | none => simp [hty] at h
  | some ty =>
    simp only [hty] at h
    cases hcc : convertContent e ty with
    | error m => simp [hcc] at h
    | ok content =>
      simp only [hcc] at h
      cases hp : JDict.get? e "path" with
      | none => simp [hp] at h
      | some p =>
        simp only [hp] at h
        cases hnm : JDict.get? e "name" with
        | none => simp [hnm] at h
        | some nm =>
          simp only [hnm] at h
          cases hmd : JDict.get? e "metadata" with
          | none => simp [hmd] at h
          | some md =>
            simp only [hmd] at h
            cases md with
            | null => simp at h
            | bool b => simp at h
            | num n => simp at h
            | str s => simp at h
            | arr xs => simp at h
            | obj mfs =>
              simp only [Except.ok.injEq] at h
              subst h
              exact ⟨ty, p, nm, mfs, rfl, hcc, rfl, rfl, rfl, rfl⟩

theorem convertContent_other {e : Elem} {ty : JVal}
    (h1 : isStrEq ty "text" = false) (h2 : isStrEq ty "frame" = false) :
    convertContent e ty = .ok "" := by
  unfold convertContent
  rw [if_neg (by simp [h1]), if_neg (by simp [h2])]

theorem convertContent_text_ne {e : Elem} {ty : JVal} {c : String}
    (hty : isStrEq ty "text" = true) (h : convertContent e ty = .ok c) : c ≠ "" := by
  unfold convertContent at h
  rw [if_pos hty] at h
  cases hc : JDict.get? e "content" with
  | none => rw [hc] at h; exact Except.noConfusion h
  | some cv =>
    simp only [hc] at h
    cases hp : JDict.get? e "path" with
    | none => rw [hp] at h; exact Except.noConfusion h
    | some pv =>
      simp only [hp] at h
      cases hs : JDict.get? e "style" with
      | none => rw [hs] at h; exact Except.noConfusion h
      | some sv =>
        simp only [hs, Except.ok.injEq] at h
        rw [← h]
        apply pyStrip_ne_empty (c := 'T') (by decide)
        simp only [String.data_append]
        repeat apply List.mem_append_left
        decide

theorem convertContent_frame_ne {e : Elem} {ty : JVal} {c : String}
    (hty : isStrEq ty "frame" = true) (hnot : isStrEq ty "text" = false)
    (h : convertContent e ty = .ok c) : c ≠ "" := by
  unfold convertContent at h
  rw [if_neg (by simp [hnot]), if_pos hty] at h
  cases hnm : JDict.get? e "name" with
  | none => rw [hnm] at h; exact Except.noConfusion h
  | some nv =>
    simp only [hnm] at h
    cases hp : JDict.get? e "path" with
    | none => rw [hp] at h; exact Except.noConfusion h
    | some pv =>
      simp only [hp, Except.ok.injEq] at h
      rw [← h]
      apply pyStrip_ne_empty (c := 'F') (by decide)
      simp only [String.data_append]
      repeat apply List.mem_append_left
      decide

/-- Conversion of a claim C3: for elements the converter accepts, a text
or frame kind always yields non-empty content; and for every element of
any other kind whose type, path and name keys are present and whose
metadata is a mapping, conversion does not raise at all: it returns the
record whose content is the empty string and whose metadata is the usual
merge. -/
theorem claim_C3_amended :
    (∀ (e : Elem) (r : RAGDocument), convert_to_rag_format e = .ok r →
      (JDict.get? e "type" = some (JVal.str "text") ∨
        JDict.get? e "type" = some (JVal.str "frame")) →
      r.content ≠ "") ∧
    (∀ (e : Elem) (ty p nm : JVal) (m : List (String × JVal)),
      JDict.get? e "type" = some ty → isStrEq ty "text" = false →
      isStrEq ty "frame" = false →
      JDict.get? e "path" = some p → JDict.get? e "name" = some nm →
      JDict.get? e "metadata" = some (JVal.obj m) →
      convert_to_rag_format e =
        .ok ⟨"", JDict.merge [("type", ty), ("path", p), ("name", nm)] m⟩) := by
  constructor
  · intro e r hok hty
    obtain ⟨ty, p, nm, mfs, h1, h2, -, -, -, -⟩ := convert_ok_elim hok
    rcases hty with hty | hty
    · rw [h1] at hty
      injection hty with hty
      subst hty
      exact convertContent_text_ne
        (show isStrEq (JVal.str "text") "text" = true from rfl) h2
    · rw [h1] at hty
      injection hty with hty
      subst hty
      exact convertContent_frame_ne
        (show isStrEq (JVal.str "frame") "frame" = true from rfl)
        (show isStrEq (JVal.str "frame") "text" = false from rfl) h2
  · intro e ty p nm m hty hf1 hf2 hp hnm hmd
    simp only [convert_to_rag_format, convertInner, hty, convertContent_other hf1 hf2,
      hp, hnm, hmd]

/-- Claim C3 as stated is false: an element of kind other (neither text
nor frame) with all read fields present is converted without raising, and
the returned record has empty content. -/
theorem claim_C3_counterexample :
    JDict.get? c3OtherElem "type" = some (JVal.str "other") ∧
    convert_to_rag_format c3OtherElem = Except.ok c3OtherDoc ∧
    c3OtherDoc.content = "" :=
  ⟨rfl, rfl, rfl⟩

/-- Witness: the amended C3 statement applied to a concrete text element
and to the concrete other-kind element. -/
theorem claim_C3_witness :
    convert_to_rag_format c3TextElem = Except.ok c3TextDoc ∧
    c3TextDoc.content ≠ "" ∧
    JDict.get? c3OtherElem "type" = some (JVal.str "other") ∧
    convert_to_rag_format c3OtherElem = Except.ok
      ⟨"", JDict.merge
        [("type", JVal.str "other"), ("path", JVal.str "p"), ("name", JVal.str "n")] []⟩ :=
  ⟨rfl, claim_C3_amended.1 c3TextElem c3TextDoc rfl (Or.inl rfl), rfl,
    claim_C3_amended.2 c3OtherElem (JVal.str "other") (JVal.str "p") (JVal.str "n") []
      rfl rfl rfl rfl rfl rfl⟩

/-- Conversion of claim C4: in the converted metadata, a key of the
element metadata mapping wins every collision with the base keys (the
spread comes last in the dict literal), so the carried value is the one
from the extra mapping, for every key it binds. -/
theorem claim_C4_amended :
    ∀ (e : Elem) (r : RAGDocument) (m : List (String × JVal)) (k : String) (v : JVal),
      convert_to_rag_format e = .ok r →
      JDict.get? e "metadata" = some (JVal.obj m) →
      (m.map Prod.fst).Nodup →
      JDict.get? m k = some v →
      JDict.get? r.metadata k = some v := by
  intro e r m k v hok hmd hnd hget
  obtain ⟨ty, p, nm, mfs, -, -, -, -, hmd', hmeta⟩ := convert_ok_elim hok
  rw [hmd] at hmd'
  injection hmd' with hmd'
  injection hmd' with hmd'
  subst hmd'
  rw [hmeta]
  exact JDict.get?_merge_of_mem _ _ _ _ hnd hget

/-- Claim C4 as stated is false: for the colliding element, the converted
metadata carries the value X from the extra mapping, not the base path
value Y. -/
theorem claim_C4_counterexample :
    ((convert_to_rag_format c4Elem).toOption.map fun r => JDict.get? r.metadata "path") =
      some (some (JVal.str "X")) ∧
    JDict.get? c4Elem "path" = some (JVal.str "Y") ∧
    JVal.str "X" ≠ JVal.str "Y" := by
  refine ⟨rfl, rfl, ?_⟩
  intro h
  injection h with h
  exact absurd h (by decide)

/-- Witness: the amended C4 statement applied to the colliding element. -/
theorem claim_C4_witness :
    convert_to_rag_format c4Elem = Except.ok c4Doc ∧
    JDict.get? c4Elem "metadata" = some (JVal.obj [("path", JVal.str "X")]) ∧
    JDict.get? c4Doc.metadata "path" = some (JVal.str "X") :=
  ⟨rfl, rfl,
    claim_C4_amended c4Elem c4Doc [("path", JVal.str "X")] "path" (JVal.str "X")
      rfl rfl (by simp) rfl⟩

/-! ### Path law and pre-order refinement -/

theorem joinNames_append_single (ns : List String) (n : String) :
    joinNames (ns ++ [n]) = pathAppend (joinNames ns) n := by
  simp [joinNames, List.foldl_append]

mutual

theorem extract_eq_specElems : ∀ (n : Node) (anc : List String),
    extract_text_content n (joinNames anc) = specElems joinNames n anc
  | .node d cs, anc => by
    simp only [extract_text_content, specElems]
    rw [← joinNames_append_single anc (d.name?.getD ""),
        extract_children_eq_specChildren cs (anc ++ [d.name?.getD ""])]

theorem extract_children_eq_specChildren : ∀ (ns : List Node) (anc : List String),
    extract_children ns (joinNames anc) = specChildren joinNames ns anc
  | [], _ => rfl
  | c :: rest, anc => by
    simp only [extract_children, specChildren]
    rw [extract_eq_specElems c anc, extract_children_eq_specChildren rest anc]

end

/-- Conversion of claim C5: the extractor emits in pre-order and each
element path is the left fold of the source path rule over the ancestor
names (which skips a leading empty accumulated path), not their plain
slash-intercalation; the concrete spec scenario holds as stated. -/
theorem claim_C5_amended :
    (∀ t : Node, extract_text_content t "" = specElems joinNames t []) ∧
    (extract_text_content page1Tree "").map
      (fun e => (elemType e, elemPath e, elemName e, elemContent e)) =
      [("frame", "", "Page1", "Frame: Page1"), ("text", "Page1", "T1", "Hello")] := by
  constructor
  · intro t
    exact extract_eq_specElems t []
  · decide

/-- Claim C5 as stated is false: on the tree with an unnamed root the
code gives the TEXT element path A while the slash-intercalation of its
ancestor names gives /A. -/
theorem claim_C5_counterexample :
    extract_text_content unnamedRootTree "" ≠
      specElems (fun ns => String.intercalate "/" ns) unnamedRootTree [] := by
  intro h
  have h2 := congrArg (List.map elemPath) h
  have e1 : (extract_text_content unnamedRootTree "").map elemPath = ["", "A"] := by decide
  have e2 : (specElems (fun ns => String.intercalate "/" ns) unnamedRootTree []).map elemPath
      = ["", "/A"] := by decide
  rw [e1, e2] at h2
  exact absurd h2 (by decide)

/-! ### Shape invariant of extracted elements -/

theorem textElem_shape (d : NodeData) (p : String) : elemShapeOK (textElem d p) :=
  ⟨Or.inl rfl, rfl, rfl, rfl, _, rfl, rfl, rfl⟩

theorem frameElem_shape (d : NodeData) (p : String) : elemShapeOK (frameElem d p) :=
  ⟨Or.inr rfl, rfl, rfl, rfl, _, rfl, rfl, rfl⟩

mutual

theorem extract_shape_aux : ∀ (n : Node) (p : String) (e : Elem),
    e ∈ extract_text_content n p → elemShapeOK e
  | .node d cs, p, e => by
    intro hmem
    simp only [extract_text_content] at hmem
    rcases List.mem_append.mp hmem with hown | hch
    · unfold ownElems at hown
      split at hown
      · rw [List.mem_singleton] at hown
        subst hown
        exact textElem_shape d p
      · split at hown
        · split at hown
          · rw [List.mem_singleton] at hown
            subst hown
            exact frameElem_shape d p
          · simp at hown
        · simp at hown
    · exact extract_children_shape_aux cs _ e hch

theorem extract_children_shape_aux : ∀ (ns : List Node) (p : String) (e : Elem),
    e ∈ extract_children ns p → elemShapeOK e
  | [], _, e => by intro hmem; simp [extract_children] at hmem
  | c :: rest, p, e => by
    intro hmem
    simp only [extract_children] at hmem
    rcases List.mem_append.mp hmem with h | h
    · exact extract_shape_aux c p e h
    · exact extract_children_shape_aux rest p e h

end

/-- Claim C10: every element the extractor emits, from any node and any
incoming path, satisfies the shape invariant. -/
theorem claim_C10_shape : ∀ (n : Node) (p : String) (e : Elem),
    e ∈ extract_text_content n p → elemShapeOK e :=
  extract_shape_aux

/-- Witness: the shape invariant holds of the TEXT element the scenario
tree emits. -/
theorem claim_C10_witness :
    c10Elem ∈ extract_text_content page1Tree "" ∧ elemShapeOK c10Elem := by
  have hrw : extract_text_content page1Tree "" =
      [frameElem page1Data "", textElem t1Data "Page1"] := rfl
  have hm : c10Elem ∈ extract_text_content page1Tree "" := by
    rw [hrw]
    exact List.mem_cons_of_mem _ (List.mem_cons_self _ _)
  exact ⟨hm, claim_C10_shape page1Tree "" c10Elem hm⟩

/-! ### Batch partition lemmas -/

theorem batchSlices_nil {α : Type} (k : Nat) : batchSlices ([] : List α) k = [] := by
  unfold batchSlices
  have h : (List.length ([] : List α) + k - 1) / k = 0 := by
    cases k with
    | zero => simp
    | succ m =>
      apply Nat.div_eq_of_lt
      simp only [List.length_nil]
      omega
  rw [h]
  rfl

theorem batchSlices_cons {α : Type} {xs : List α} {k : Nat} (hk : k ≠ 0) (hxs : xs ≠ []) :
    batchSlices xs k = xs.take k :: batchSlices (xs.drop k) k := by
  unfold batchSlices
  have hk' : 0 < k := Nat.pos_of_ne_zero hk
  have hlen : 0 < xs.length := List.length_pos.mpr hxs
  have h1 : xs.length + k - 1 = (xs.length - 1) + k := by omega
  rw [h1, Nat.add_div_right _ hk', List.range_succ_eq_map]
  simp only [List.map_cons, List.map_map]
  congr 1
  · simp
  · have h2 : (xs.length - 1) / k = ((xs.drop k).length + k - 1) / k := by
      rw [List.length_drop]
      rcases le_or_lt k xs.length with hle | hlt
      · congr 1
        omega
      · have e1 : xs.length - k = 0 := by omega
        rw [e1, Nat.div_eq_of_lt (by omega), Nat.div_eq_of_lt (by omega)]
    rw [← h2]
    apply List.map_congr_left
    intro i _
    simp only [Function.comp_apply, List.drop_drop, Nat.succ_eq_add_one]
    congr 2
    ring

theorem flatten_batchSlices_bounded {α : Type} (k : Nat) (hk : k ≠ 0) :
    ∀ (n : Nat) (xs : List α), xs.length ≤ n → (batchSlices xs k).flatten = xs := by
  intro n
  induction n with
  | zero =>
    intro xs h
    rw [List.eq_nil_of_length_eq_zero (Nat.le_zero.mp h)]
    rw [batchSlices_nil]
    rfl
  | succ m ih =>
    intro xs h
    rcases eq_or_ne xs [] with rfl | hne
    · rw [batchSlices_nil]
      rfl
    · rw [batchSlices_cons hk hne, List.flatten_cons,
        ih _ (by rw [List.length_drop]; have := List.length_pos.mpr hne; omega),
        List.take_append_drop]

theorem flatten_batchSlices {α : Type} (k : Nat) (hk : k ≠ 0) (xs : List α) :
    (batchSlices xs k).flatten = xs :=
  flatten_batchSlices_bounded k hk xs.length xs le_rfl

theorem batchSlices_parts {α : Type} (k : Nat) (hk : k ≠ 0) :
    ∀ (n : Nat) (xs : List α), xs.length ≤ n → ¬ (k ∣ xs.length) →
      (∀ b ∈ (batchSlices xs k).dropLast, b.length = k) ∧
      (batchSlices xs k).getLast?.map List.length = some (xs.length % k) := by
  intro n
  induction n with
  | zero =>
    intro xs h hnd
    exfalso
    rw [List.length_eq_zero.mp (Nat.le_zero.mp h)] at hnd
    exact hnd (dvd_zero k)
  | succ m ih =>
    intro xs h hnd
    have hne : xs ≠ [] := by
      intro he
      rw [he] at hnd
      exact hnd (dvd_zero k)
    have hlen : 0 < xs.length := List.length_pos.mpr hne
    rw [batchSlices_cons hk hne]
    rcases Nat.lt_or_ge xs.length k with hlt | hge
    · have hdropnil : xs.drop k = [] := List.drop_eq_nil_of_le (le_of_lt hlt)
      rw [hdropnil, batchSlices_nil]
      constructor
      · intro b hb
        simp [List.dropLast] at hb
      · simp only [List.getLast?_singleton, Option.map_some', List.length_take]
        rw [Nat.mod_eq_of_lt hlt]
        congr 1
        omega
    · have hlen_ne : xs.length ≠ k := fun e => hnd (e ▸ dvd_refl k)
      have hgt : k < xs.length := lt_of_le_of_ne hge (Ne.symm hlen_ne)
      have hdropne : xs.drop k ≠ [] := by
        intro hdn
        have := congrArg List.length hdn
        rw [List.length_drop] at this
        simp at this
        omega
      have hdndrop : ¬ (k ∣ (xs.drop k).length) := by
        rw [List.length_drop]
        intro hd
        apply hnd
        have hx : xs.length = (xs.length - k) + k := by omega
        rw [hx]
        exact Nat.dvd_add hd (dvd_refl k)
      obtain ⟨h1, h2⟩ := ih (xs.drop k) (by rw [List.length_drop]; omega) hdndrop
      have hbs_ne : batchSlices (xs.drop k) k ≠ [] := by
        rw [batchSlices_cons hk hdropne]
        exact List.cons_ne_nil _ _
      obtain ⟨y, ys, hys⟩ := List.exists_cons_of_ne_nil hbs_ne
      constructor
      · intro b hb
        rw [hys, List.dropLast_cons₂] at hb
        rcases List.mem_cons.mp hb with rfl | hb2
        · rw [List.length_take]
          omega
        · apply h1
          rw [hys]
          exact hb2
      · rw [hys, List.getLast?_cons_cons, ← hys, h2, Nat.mod_eq_sub_mod hge,
          List.length_drop]

/-- Claim C8: for a positive batch size not dividing the list length, the
partition concatenates back to the input (so it is contiguous, in order,
nothing dropped, nothing padded, each element in exactly one batch), all
batches but the last have exactly the batch size, and the last has
exactly the remainder. -/
theorem claim_C8_batch_partition {α : Type} (xs : List α) (k : Nat)
    (hk : 0 < k) (hnd : ¬ k ∣ xs.length) :
    (batchSlices xs k).flatten = xs ∧
    (∀ b ∈ (batchSlices xs k).dropLast, b.length = k) ∧
    (batchSlices xs k).getLast?.map List.length = some (xs.length % k) := by
  obtain ⟨h1, h2⟩ := batchSlices_parts k (Nat.pos_iff_ne_zero.mp hk) xs.length xs le_rfl hnd
  exact ⟨flatten_batchSlices k (Nat.pos_iff_ne_zero.mp hk) xs, h1, h2⟩

/-- Witness: the partition claim at a seven-element list with batch size
five. -/
theorem claim_C8_witness :
    0 < 5 ∧ ¬ (5 ∣ ([0, 1, 2, 3, 4, 5, 6] : List Nat).length) ∧
    ((batchSlices ([0, 1, 2, 3, 4, 5, 6] : List Nat) 5).flatten = [0, 1, 2, 3, 4, 5, 6] ∧
      (∀ b ∈ (batchSlices ([0, 1, 2, 3, 4, 5, 6] : List Nat) 5).dropLast, b.length = 5) ∧
      (batchSlices ([0, 1, 2, 3, 4, 5, 6] : List Nat) 5).getLast?.map List.length =
        some (([0, 1, 2, 3, 4, 5, 6] : List Nat).length % 5)) :=
  ⟨by decide, by decide,
    claim_C8_batch_partition [0, 1, 2, 3, 4, 5, 6] 5 (by decide) (by decide)⟩

/-! ### Batch processor lemmas -/

theorem processBatch_go (mc : Elem → Except String String)
    (jl : String → Except String JVal) :
    ∀ (batch : List Elem) (d0 : List RAGDocument) (f0 : List (Elem × String)),
      batch.foldl
        (fun bacc element =>
          match process_element mc jl element with
          | .ok p => (bacc.1 ++ [create_rag_document p], bacc.2)
          | .error e => (bacc.1, bacc.2 ++ [(element, e)]))
        (d0, f0) =
      (d0 ++ batch.filterMap (docOf mc jl), f0 ++ batch.filterMap (failOf mc jl)) := by
  intro batch
  induction batch with
  | nil => intro d0 f0; simp
  | cons e t ih =>
    intro d0 f0
    rw [List.foldl_cons]
    cases hpe : process_element mc jl e with
    | ok p =>
      have hd : docOf mc jl e = some (create_rag_document p) := by
        unfold docOf; rw [hpe]
      have hf : failOf mc jl e = none := by
        unfold failOf; rw [hpe]
      simp only [hpe]
      rw [ih]
      simp [List.filterMap_cons, hd, hf]
    | error msg =>
      have hd : docOf mc jl e = none := by
        unfold docOf; rw [hpe]
      have hf : failOf mc jl e = some (e, msg) := by
        unfold failOf; rw [hpe]
      simp only [hpe]
      rw [ih]
      simp [List.filterMap_cons, hd, hf]

theorem processBatch_eq (mc : Elem → Except String String)
    (jl : String → Except String JVal) (b : List Elem) :
    processBatch mc jl b = (b.filterMap (docOf mc jl), b.filterMap (failOf mc jl)) := by
  unfold processBatch
  simpa using processBatch_go mc jl b [] []

theorem batch_processAux_eq (mc : Elem → Except String String)
    (jl : String → Except String JVal) (xs : List Elem) (k : Nat) (hk : k ≠ 0) :
    batch_processAux mc jl xs k =
      (xs.filterMap (docOf mc jl), xs.filterMap (failOf mc jl)) := by
  unfold batch_processAux
  have hstep : (fun (acc : List RAGDocument × List (Elem × String)) batch =>
      let pb := processBatch mc jl batch
      (acc.1 ++ pb.1, acc.2 ++ pb.2)) =
      (fun (acc : List RAGDocument × List (Elem × String)) batch =>
        (acc.1 ++ batch.filterMap (docOf mc jl), acc.2 ++ batch.filterMap (failOf mc jl))) := by
    funext acc batch
    show (acc.1 ++ (processBatch mc jl batch).1, acc.2 ++ (processBatch mc jl batch).2) = _
    rw [processBatch_eq]
  rw [hstep]
  have hgo : ∀ (sl : List (List Elem)) (acc : List RAGDocument × List (Elem × String)),
      sl.foldl (fun acc batch =>
        (acc.1 ++ batch.filterMap (docOf mc jl), acc.2 ++ batch.filterMap (failOf mc jl))) acc =
      (acc.1 ++ sl.flatten.filterMap (docOf mc jl),
       acc.2 ++ sl.flatten.filterMap (failOf mc jl)) := by
    intro sl
    induction sl with
    | nil => intro acc; simp
    | cons b t ih =>
      intro acc
      rw [List.foldl_cons, ih]
      simp [List.filterMap_append, List.append_assoc]
  rw [hgo]
  simp [flatten_batchSlices k hk]

theorem cliProcess_eq (mc : Elem → Except String String)
    (jl : String → Except String JVal) (xs : List Elem) (k r : Nat)
    (hk : k ≠ 0) (hr : r ≠ 0) :
    cliProcess mc jl xs k r = (xs.filterMap (docOf mc jl), []) := by
  obtain ⟨r', rfl⟩ := Nat.exists_eq_succ_of_ne_zero hr
  unfold cliProcess
  have hstep : (fun (acc : List RAGDocument × List Elem) batch =>
      match attemptLoop (Except.ok (batch_process mc jl batch k)) (r' + 1) with
      | .success docs => (acc.1 ++ docs, acc.2)
      | .failedBatch => (acc.1, acc.2 ++ batch)
      | .skipped => acc) =
      (fun (acc : List RAGDocument × List Elem) batch =>
        (acc.1 ++ batch.filterMap (docOf mc jl), acc.2)) := by
    funext acc batch
    show (acc.1 ++ batch_process mc jl batch k, acc.2) = _
    rw [show batch_process mc jl batch k = batch.filterMap (docOf mc jl) from by
      unfold batch_process
      rw [batch_processAux_eq mc jl batch k hk]]
  rw [hstep]
  have hgo : ∀ (sl : List (List Elem)) (acc : List RAGDocument × List Elem),
      sl.foldl (fun acc batch => (acc.1 ++ batch.filterMap (docOf mc jl), acc.2)) acc =
      (acc.1 ++ sl.flatten.filterMap (docOf mc jl), acc.2) := by
    intro sl
    induction sl with
    | nil => intro acc; simp
    | cons b t ih =>
      intro acc
      rw [List.foldl_cons, ih]
      simp [List.filterMap_append]
  rw [hgo]
  simp [flatten_batchSlices k hk]

/-- Claim C2 evaluated on the code at the failing input: for the
five-element batch with batchSize 5 and retryAttempts 1 whose model
responses all arrive but the third one is not JSON, every element fails
before its response is parsed (the awaited synchronous-client return
raises inside the per-element try), so zero documents are produced; yet
none of the five elements lands in the failed_elements collection of the
caller, which stays empty: each is recorded, paired with its error, only
in the batch-internal list that batch_process then discards. -/
theorem claim_C2_code_eval :
    cliProcess nameCall badThirdLoads c2Elems 5 1 = ([], []) ∧
    (batch_processAux nameCall badThirdLoads c2Elems 5).2 =
      [(c2e1, "Failed to process element: object ChatCompletion can not be used in await expression"),
       (c2e2, "Failed to process element: object ChatCompletion can not be used in await expression"),
       (c2e3, "Failed to process element: object ChatCompletion can not be used in await expression"),
       (c2e4, "Failed to process element: object ChatCompletion can not be used in await expression"),
       (c2e5, "Failed to process element: object ChatCompletion can not be used in await expression")] :=
  ⟨rfl, rfl⟩

/-- Claim C1 evaluated on the code at the failing input: with a model
call that always fails on every element and retryAttempts 3, the cli loop
ends with no documents and an empty failed_elements collection, even
though the batch processor recorded each element paired with its error in
the local list whose contents it then discards: the failed elements are
observable nowhere. -/
theorem claim_C1_code_eval :
    cliProcess failCall failLoads [c1e1, c1e2] 5 3 = ([], []) ∧
    (batch_processAux failCall failLoads [c1e1, c1e2] 5).2 =
      [(c1e1, "Failed to process element: network unreachable"),
       (c1e2, "Failed to process element: network unreachable")] :=
  ⟨rfl, rfl⟩

/-! ### Serialization failure, pipeline determinism, fetch errors -/

/-- Claim C6 evaluated on the code at the failing input: a failing write
makes save_to_jsonl raise a ConversionError, not the FileOperationError
taxonomy entry (which the repository defines but never uses); the error
does propagate, aborting the pipeline run. -/
theorem claim_C6_code_eval :
    save_to_jsonl [emptyDoc] failWrite =
      .error (.conversionError "Failed to save output: Permission denied") ∧
    (∀ m : String, save_to_jsonl [emptyDoc] failWrite ≠
      Except.error (AppError.fileOperationError m)) ∧
    process_file (.document bareTree) failWrite 0 =
      .error (.conversionError "Failed to save output: Permission denied") := by
  refine ⟨rfl, ?_, rfl⟩
  intro m h
  rw [show save_to_jsonl [emptyDoc] failWrite =
    .error (.conversionError "Failed to save output: Permission denied") from rfl] at h
  injection h with h
  exact AppError.noConfusion h

/-- Claim C7: process_file is a deterministic function of the fetched
tree and the writer: two runs with the same fetch outcome and writer,
whatever their run-varying ambient inputs, return the same documents and
write byte-identical output. -/
theorem claim_C7_idempotent (f : FetchResult) (w : String → Except String Unit)
    (n₁ n₂ : Nat) (d₁ d₂ : List RAGDocument) (t₁ t₂ : String)
    (h₁ : process_file f w n₁ = .ok (d₁, t₁))
    (h₂ : process_file f w n₂ = .ok (d₂, t₂)) :
    d₁ = d₂ ∧ t₁ = t₂ := by
  have h3 : (Except.ok (d₁, t₁) : Except AppError (List RAGDocument × String)) =
      Except.ok (d₂, t₂) := by
    rw [← h₁]
    exact h₂
  injection h3 with h3
  exact ⟨congrArg Prod.fst h3, congrArg Prod.snd h3⟩

/-- Witness: two runs of process_file on the bare tree agree. -/
theorem claim_C7_witness :
    process_file (.document bareTree) okWrite 0 = Except.ok ([], "") ∧
    process_file (.document bareTree) okWrite 1 = Except.ok ([], "") ∧
    (([] : List RAGDocument) = [] ∧ ("" : String) = "") :=
  ⟨rfl, rfl, claim_C7_idempotent (.document bareTree) okWrite 0 1 [] [] "" "" rfl rfl⟩

/-- Conversion of claim C9: get_file_content raises a FigmaAPIError
exactly on a transport failure, on a non-success status with non-empty
body text, or on a success status whose body fails to decode as JSON
(the decode error is caught by the same handler); and a non-success
response with empty body text returns the empty mapping instead. -/
theorem claim_C9_amended :
    (∀ h : HttpOutcome, isFigmaAPIError (get_file_content h) = true ↔
      FigmaFailCondAmended h) ∧
    (∀ (st : Nat) (j : Except String JVal), 400 ≤ st →
      get_file_content (.response st "" j) = .ok []) := by
  constructor
  · intro h
    cases h with
    | transportError m =>
      simp [get_file_content, make_request, isFigmaAPIError, FigmaFailCondAmended]
    | response st text j =>
      by_cases hst : st < 400
      · have hst' : ¬ 400 ≤ st := by omega
        cases j with
        | error m =>
          simp [get_file_content, make_request, isFigmaAPIError, FigmaFailCondAmended,
            hst, hst']
        | ok v =>
          cases v <;>
            simp [get_file_content, make_request, isFigmaAPIError, FigmaFailCondAmended,
              hst, hst']
      · have hst' : 400 ≤ st := by omega
        by_cases htext : text = ""
        · subst htext
          simp [get_file_content, make_request, isFigmaAPIError, FigmaFailCondAmended,
            hst, hst']
        · simp [get_file_content, make_request, isFigmaAPIError, FigmaFailCondAmended,
            hst, hst', htext]
  · intro st j hst
    simp only [get_file_content, make_request]
    rw [if_neg (show ¬ st < 400 by omega)]
    simp

/-- Claim C9 as stated is false: a success-status response whose body is
not JSON raises a FigmaAPIError although it is neither a transport
failure nor a non-success status with non-empty body. -/
theorem claim_C9_counterexample :
    isFigmaAPIError (get_file_content c9BadBody) = true ∧ ¬ FigmaFailCond c9BadBody := by
  constructor
  · rfl
  · intro h
    exact absurd h.1 (by decide)

/-- Witness: the amended C9 statement at a 404 with empty body. -/
theorem claim_C9_witness :
    400 ≤ 404 ∧ get_file_content (.response 404 "" (.ok (JVal.obj []))) = .ok [] :=
  ⟨by omega, claim_C9_amended.2 404 (.ok (JVal.obj [])) (by omega)⟩
